import Mathlib

/-!
Shallow embedding of the MIPS emulator core (`src/state.rs`) of the
`mips_emulator` repository, together with theorems settling the frozen
claims about its specification.

Modelling conventions:
* Machine words (Rust `u32`) are `Nat`s; every operation whose Rust result
  is constrained by the `u32` type reduces its result modulo 2^32
  (release-profile semantics: arithmetic overflow wraps, shift amounts are
  masked to the operand width).
* Rust `i32`/`i64` intermediate values are modelled with `Int` and the
  corresponding bit-pattern conversions.
* Fallible operations (Rust panics: out-of-bounds indexing,
  `copy_from_slice` length mismatches, division by zero, explicit
  `panic!` calls) are modelled with `Option`, `none` meaning that the
  execution step has no defined successor state.
* The register file and the word-addressed memory are total functions
  `Nat → Nat`; every register index the source ever produces is a 5-bit
  field, matching the bounds of the Rust `[u32; 32]` array.
-/

namespace MipsEmulator

/-- 2^32, the modulus of the 32-bit machine words. -/
def W : Nat := 4294967296

/-- Wrapping 32-bit addition (Rust `u32` `+` in release profile). -/
def wadd (a b : Nat) : Nat := (a + b) % W

/-- Wrapping 32-bit subtraction (Rust `u32` `-` in release profile). -/
def wsub (a b : Nat) : Nat := (a + (W - b % W)) % W

/-- Rust `u32` left shift in release profile: the shift amount is masked
to the word width and the result truncated to 32 bits. -/
def wshl (x n : Nat) : Nat := (x <<< (n % 32)) % W

/-- Rust `u32` right shift in release profile: the shift amount is masked
to the word width. -/
def wshr (x n : Nat) : Nat := x >>> (n % 32)

/-- The signed (two's complement) reading of a 32-bit word. -/
def toSigned (x : Nat) : Int := if x < 2147483648 then (x : Int) else (x : Int) - 4294967296

/-- The 32-bit word whose two's complement reading is the given integer
(i.e. the bit pattern of an `i32` result, reduced modulo 2^32). -/
def ofSigned (i : Int) : Nat := (i % (4294967296 : Int)).toNat

/-- Truncated (round-toward-zero) integer division, the semantics of the
Rust `i32` `/` operator. -/
def itdiv (a b : Int) : Int :=
  if (0 ≤ a ∧ 0 ≤ b) ∨ (a < 0 ∧ b < 0) then ((a.natAbs / b.natAbs : Nat) : Int)
  else -((a.natAbs / b.natAbs : Nat) : Int)

/-- The remainder paired with `itdiv`, the semantics of the Rust `i32`
`%` operator (it has the sign of the dividend). -/
def itmod (a b : Int) : Int := a - b * itdiv a b

/-- `fn sign_extension(dat: u32, idx: u32) -> u32` (src/state.rs:670).
Extends `dat` (taken modulo `2^idx`) to 32 bits copying bit `idx-1`.
Release-profile shift semantics: amounts are masked modulo 32, and the
`idx - 1` subtraction wraps modulo 2^32 (only reachable for `idx = 0`). -/
def sign_extension (dat idx : Nat) : Nat :=
  let is_signed := (dat >>> ((idx + 4294967295) % W % 32)) ≠ 0
  let signed := (((1 <<< ((W - idx % W) % W % 32)) % W - 1) <<< (idx % 32)) % W
  let mask := (1 <<< (idx % 32)) % W - 1
  if is_signed then dat &&& mask ||| signed else dat &&& mask

/-- Functional update of the register file
(`self.state.registers[i] = v`). -/
def writeReg (r : Nat → Nat) (i v : Nat) : Nat → Nat := fun j => if j = i then v else r j

/-- Functional update of the word memory
(`self.state.memory.set_memory(a, v)`; the Memory collaborator stores the
word under its aligned address). -/
def writeMem (mem : Nat → Nat) (a v : Nat) : Nat → Nat := fun x => if x = a then v else mem x

/-- `u32::to_be_bytes`. -/
def u32BeBytes (x : Nat) : List Nat :=
  [x >>> 24 % 256, x >>> 16 % 256, x >>> 8 % 256, x % 256]

/-- `usize::to_be_bytes` on the 64-bit target the emulator is built for:
eight big-endian bytes. -/
def u64BeBytes (x : Nat) : List Nat :=
  [x >>> 56 % 256, x >>> 48 % 256, x >>> 40 % 256, x >>> 32 % 256,
   x >>> 24 % 256, x >>> 16 % 256, x >>> 8 % 256, x % 256]

/-- `u32::from_be_bytes` of the first four bytes of a buffer. -/
def u32FromBeBytes (l : List Nat) : Nat :=
  l.getD 0 0 * 16777216 + l.getD 1 0 * 65536 + l.getD 2 0 * 256 + l.getD 3 0

/-- `<[u8]>::copy_from_slice`: Rust panics unless source and destination
have the same length; on success the destination is entirely replaced by
the source bytes. -/
def copyFromSlice (dst src : List Nat) : Option (List Nat) :=
  if src.length = dst.length then some src else none

/-- The machine state (`struct State`, src/state.rs:21) together with the
instrumentation fields of `struct InstrumentedState` (src/state.rs:57)
that the step function reads or writes.  The external sinks (stdout and
stderr writers) and the Merkle-proof bytes are not represented: the
source never lets them influence the machine state. -/
structure Machine where
  memory : Nat → Nat
  preimage_key : List Nat
  preimage_offset : Nat
  registers : Nat → Nat
  pc : Nat
  next_pc : Nat
  hi : Nat
  lo : Nat
  heap : Nat
  step : Nat
  exited : Bool
  exit_code : Nat
  last_hint : List Nat
  last_mem_access : Nat
  mem_proof_enabled : Bool
  last_preimage : List Nat
  last_preimage_key : List Nat
  last_preimage_offset : Nat

/-- `fn track_memory_access(&mut self, addr: u32)` (src/state.rs:82):
fatal when proofs are enabled and a different address was already
accessed in this step; otherwise records the address.  (The Merkle-proof
bytes it also recomputes are external to the machine state.) -/
def track_memory_access (m : Machine) (addr : Nat) : Option Machine :=
  if m.mem_proof_enabled ∧ m.last_mem_access ≠ addr then none
  else some { m with last_mem_access := addr }

/-- Modelled from the spec: the page-size constant of the memory
subsystem (`crate::page::PAGE_SIZE`, whose source is not under `src/`);
the spec only says mmap sizes are "rounded up to the page size", standard
4 KiB pages. -/
def PAGE_SIZE : Nat := 4096

/-- Modelled from the spec: a byte of the Memory collaborator
(`crate::memory::Memory`, not under `src/`), which stores 32-bit words
big-endian under their aligned address (§4.4 "big-endian-within-word byte
addressing convention"). -/
def getByte (mem : Nat → Nat) (a : Nat) : Nat :=
  (mem (a / 4 * 4) >>> ((3 - a % 4) * 8)) % 256

/-- Modelled from the spec: the Memory collaborator's byte-range reader
(`read_memory_range` / `open_range_reader(addr, count)`, §6), which
yields `count` bytes starting at `addr`. -/
def readMemoryRange (mem : Nat → Nat) (addr count : Nat) : List Nat :=
  (List.range count).map fun i => getByte mem ((addr + i) % W)

/-- The `while` loop of the `FD_HINT_WRITE` branch of `handle_syscall`
(src/state.rs:213-224), processing buffered hint records.  The loop body
either consumes the whole buffer, panics (slicing `[4..4+hint_len]` out
of range), or leaves the buffer unchanged and loops forever; the `fuel`
argument makes the recursion well-founded, `none` covering both the
panic and the divergence (in either case the step has no successor
state).  The second component accumulates the payloads forwarded to the
oracle's hint callback. -/
def hintLoop : Nat → List Nat → List (List Nat) → Option (List Nat × List (List Nat))
  | 0, _, _ => none
  | fuel + 1, buf, acc =>
    if 4 < buf.length then
      let hint_len := u32FromBeBytes (buf.take 4)
      if buf.length - 4 ≤ hint_len then
        if 4 + hint_len ≤ buf.length then
          hintLoop fuel (buf.drop (4 + hint_len)) (acc ++ [(buf.drop 4).take hint_len])
        else none
      else hintLoop fuel buf acc
    else some (buf, acc)

/-- `fn read_preimage(&mut self, key: [u8; 32], offset: u32)`
(src/state.rs:92).  The oracle (`get_preimage`) is passed as a function
from keys to blobs.  Returns the updated machine, the 32-byte data array
and the byte count. -/
def read_preimage (o : List Nat → List Nat) (m : Machine) (key : List Nat) (offset : Nat) :
    Option (Machine × List Nat × Nat) :=
  let m1 :=
    if key ≠ m.last_preimage_key then
      let data := o key
      { m with last_preimage_key := key,
               last_preimage := u64BeBytes data.length ++ data }
    else m
  let m2 := { m1 with last_preimage_offset := offset }
  if offset ≤ m2.last_preimage.length then
    let bytes_to_copy := m2.last_preimage.drop offset
    let copy_size := min bytes_to_copy.length 32
    (copyFromSlice ((List.replicate 32 0).take copy_size) bytes_to_copy).bind fun c =>
      some (m2, c ++ List.replicate (32 - copy_size) 0, copy_size)
  else none

/-- The common tail of `handle_syscall` (src/state.rs:271-275): write the
return value into `v0` (register 2) and the error code into `v1`
(register 7), then advance the program-counter pair. -/
def syscallRet (m : Machine) (v0 v1 : Nat) : Machine :=
  { m with registers := writeReg (writeReg m.registers 2 v0) 7 v1,
           pc := m.next_pc, next_pc := wadd m.next_pc 4 }

/-- The mmap size rounding (src/state.rs:124-128): align the requested
size up to the next page boundary, with wrapping `u32` addition. -/
def mmapSize (a1 : Nat) : Nat :=
  if a1 % PAGE_SIZE ≠ 0 then wadd a1 (PAGE_SIZE - a1 % PAGE_SIZE) else a1

/-- The `FD_PREIMAGE_READ` arm of the read syscall (src/state.rs:156-172):
track the aligned address, read the cached preimage, and splice up to
`min(available, word space, count)` bytes into the addressed word.  The
`out_mem[alignment..].copy_from_slice(&data[..data_len])` call panics
unless `data_len` equals the remaining word space. -/
def syscall_preimage_read (o : List Nat → List Nat) (m : Machine) (a1 a2 : Nat) :
    Option Machine :=
  let addr := a1 &&& 4294967292
  (track_memory_access m addr).bind fun m1 =>
    let mem := m1.memory addr
    (read_preimage o m1 m1.preimage_key m1.preimage_offset).bind fun r =>
      let alignment := a1 &&& 3
      let space := 4 - alignment
      let dlen := min (min r.2.2 space) a2
      (copyFromSlice ((u32BeBytes mem).drop alignment) (r.2.1.take dlen)).bind fun tail =>
        some (syscallRet
          { r.1 with
            memory := writeMem r.1.memory addr
              (u32FromBeBytes ((u32BeBytes mem).take alignment ++ tail)),
            preimage_offset := wadd r.1.preimage_offset dlen }
          dlen 0)

/-- The `FD_HINT_WRITE` arm of the write syscall (src/state.rs:208-225):
append the written bytes to `last_hint` and run the record-processing
loop.  The branch leaves `v0 = 0`. -/
def syscall_hint_write (m : Machine) (a1 a2 : Nat) : Option Machine :=
  let buf := m.last_hint ++ readMemoryRange m.memory a1 a2
  (hintLoop (buf.length + 1) buf []).bind fun r =>
    some (syscallRet { m with last_hint := r.1 } 0 0)

/-- The `FD_PREIMAGE_WRITE` arm of the write syscall (src/state.rs:226-241):
two `copy_from_slice` calls build the shifted key; each panics on a
length mismatch. -/
def syscall_preimage_write (m : Machine) (a1 a2 : Nat) : Option Machine :=
  let addr := a1 &&& 4294967292
  (track_memory_access m addr).bind fun m1 =>
    let alignment := a1 &&& 3
    let space := 4 - alignment
    let a2n := min a2 space
    (copyFromSlice (List.replicate 32 0) (m1.preimage_key.drop a2n)).bind fun key1 =>
      (copyFromSlice (key1.drop (32 - a2n)) (u32BeBytes (m1.memory addr))).bind fun tail =>
        some (syscallRet
          { m1 with preimage_key := key1.take (32 - a2n) ++ tail, preimage_offset := 0 }
          a2n 0)

/-- `fn handle_syscall(&mut self)` (src/state.rs:112), with
`syscall_num = v0 = registers[2]`, `a0..a2 = registers[4..6]`.  The
stdout and stderr branches stream memory bytes to the external sinks,
which does not change the machine state (§5: a sink failure would abort;
the sinks are modelled as accepting). -/
def handle_syscall (o : List Nat → List Nat) (m : Machine) : Option Machine :=
  if m.registers 2 = 4090 then -- mmap: a0 = heap/hint, a1 = size
    if m.registers 4 = 0 then
      some (syscallRet { m with heap := wadd m.heap (mmapSize (m.registers 5)) } m.heap 0)
    else some (syscallRet m (m.registers 4) 0)
  else if m.registers 2 = 4045 then -- brk
    some (syscallRet m 1073741824 0)
  else if m.registers 2 = 4120 then -- clone
    some (syscallRet m 1 0)
  else if m.registers 2 = 4246 then -- exit group: early return, no pc advance
    some { m with exited := true, exit_code := m.registers 4 % 256 }
  else if m.registers 2 = 4003 then -- read: a0 = fd, a1 = addr, a2 = count
    if m.registers 4 = 0 then some (syscallRet m 0 0) -- FD_STDIN
    else if m.registers 4 = 5 then syscall_preimage_read o m (m.registers 5) (m.registers 6)
    else if m.registers 4 = 3 then some (syscallRet m (m.registers 6) 0) -- FD_HINT_READ
    else some (syscallRet m 4294967295 9) -- EBADF
  else if m.registers 2 = 4004 then -- write: a0 = fd, a1 = addr, a2 = count
    if m.registers 4 = 1 ∨ m.registers 4 = 2 then -- FD_STDOUT / FD_STDERR
      some (syscallRet m (m.registers 6) 0)
    else if m.registers 4 = 4 then syscall_hint_write m (m.registers 5) (m.registers 6)
    else if m.registers 4 = 6 then syscall_preimage_write m (m.registers 5) (m.registers 6)
    else some (syscallRet m 4294967295 9) -- EBADF
  else if m.registers 2 = 4055 then -- fcntl: a0 = fd, a1 = cmd
    if m.registers 5 = 3 then -- F_GETFL
      if m.registers 4 = 0 ∨ m.registers 4 = 5 ∨ m.registers 4 = 3 then
        some (syscallRet m 0 0) -- O_RDONLY
      else if m.registers 4 = 1 ∨ m.registers 4 = 2 ∨ m.registers 4 = 6 ∨ m.registers 4 = 4 then
        some (syscallRet m 1 0) -- O_WRONLY
      else some (syscallRet m 4294967295 9)
    else some (syscallRet m 4294967295 9)
  else some (syscallRet m 0 0)

/-- `fn handle_branch(&mut self, opcode: u32, insn: u32, rt_reg: u32, rs: u32)`
(src/state.rs:278).  The guard on the first two lines panics whenever the
full instruction word `insn` is neither 0 nor 1. -/
def handle_branch (m : Machine) (opcode insn rt_reg rs : Nat) : Option Machine :=
  if insn ≠ 0 ∧ insn ≠ 1 then none
  else
    (if opcode = 4 ∨ opcode = 5 then -- beq/bne
       let rt := m.registers rt_reg
       some (decide ((rs = rt ∧ opcode = 4) ∨ (rs ≠ rt ∧ opcode = 5)))
     else if opcode = 6 then some (decide (toSigned rs ≤ 0)) -- blez
     else if opcode = 7 then some (decide (0 < toSigned rs)) -- bgtz
     else if opcode = 1 then -- regimm
       let rtv := (insn >>> 16) &&& 31
       if rtv = 0 then some (decide (toSigned rs < 0)) -- bltz
       else some (decide (0 ≤ toSigned rs)) -- bgez
     else none).bind fun should_branch =>
      let prev_pc := m.pc
      if should_branch then
        some { m with pc := m.next_pc,
                      next_pc := wadd (wadd prev_pc 4) (wshl (sign_extension (insn &&& 65535) 16) 2) }
      else
        some { m with pc := m.next_pc, next_pc := wadd m.next_pc 4 }

/-- `fn handle_jump(&mut self, link_reg: u32, dest: u32)` (src/state.rs:317).
Every caller passes a 5-bit link register, so the array write is in
bounds. -/
def handle_jump (m : Machine) (link_reg dest : Nat) : Machine :=
  let prev_pc := m.pc
  let m1 := { m with pc := m.next_pc, next_pc := dest }
  if link_reg ≠ 0 then
    { m1 with registers := writeReg m1.registers link_reg (wadd prev_pc 8) }
  else m1

/-- The writeback-and-advance tail shared by every arm of `handle_hilo`
(src/state.rs:366-371). -/
def hilo_finish (m : Machine) (store_reg val : Nat) : Machine :=
  let m1 :=
    if store_reg ≠ 0 then { m with registers := writeReg m.registers store_reg val } else m
  { m1 with pc := m1.next_pc, next_pc := wadd m1.next_pc 4 }

/-- `fn handle_hilo(&mut self, fun: u32, rs: u32, rt: u32, store_reg: u32)`
(src/state.rs:328).  In the `mult` arm the source zero-extends the `u32`
operands with `rs as i64`, so the wrapped `i64` product reinterpreted as
`u64` is exactly `rs * rt` (which is below 2^64).  The signed and
unsigned divisions panic on a zero divisor, and the signed one also on
the `i32::MIN / -1` overflow. -/
def handle_hilo (m : Machine) (fn rs rt store_reg : Nat) : Option Machine :=
  if fn = 16 then some (hilo_finish m store_reg m.hi) -- mfhi
  else if fn = 17 then some (hilo_finish { m with hi := rs } store_reg 0) -- mthi
  else if fn = 18 then some (hilo_finish m store_reg m.lo) -- mflo
  else if fn = 19 then some (hilo_finish { m with lo := rs } store_reg 0) -- mtlo
  else if fn = 24 then -- mult
    let acc := rs * rt
    some (hilo_finish { m with hi := acc >>> 32, lo := acc % W } store_reg 0)
  else if fn = 25 then -- multu
    let acc := rs * rt
    some (hilo_finish { m with hi := acc >>> 32, lo := acc % W } store_reg 0)
  else if fn = 26 then -- div
    if toSigned rt = 0 ∨ (toSigned rs = -2147483648 ∧ toSigned rt = -1) then none
    else
      some (hilo_finish { m with hi := ofSigned (itmod (toSigned rs) (toSigned rt)),
                                 lo := ofSigned (itdiv (toSigned rs) (toSigned rt)) }
              store_reg 0)
  else if fn = 27 then -- divu
    if rt = 0 then none
    else some (hilo_finish { m with hi := rs % rt, lo := rs / rt } store_reg 0)
  else none

/-- `fn handle_rd(&mut self, store_reg: u32, val: u32, conditional: bool)`
(src/state.rs:374). -/
def handle_rd (m : Machine) (store_reg val : Nat) (conditional : Bool) : Option Machine :=
  if 32 ≤ store_reg then none
  else
    let m1 :=
      if store_reg ≠ 0 ∧ conditional then
        { m with registers := writeReg m.registers store_reg val }
      else m
    some { m1 with pc := m1.next_pc, next_pc := wadd m1.next_pc 4 }

/-- The `while rs & 0x80000000 != 0` leading-ones scan of the `clz`/`clo`
arm of `execute` (src/state.rs:604-609); it runs at most 32 iterations,
so fuel 33 makes it total without changing its result. -/
def cloLoop : Nat → Nat → Nat → Nat
  | 0, _, i => i
  | fuel + 1, rs, i =>
    if rs &&& 2147483648 ≠ 0 then cloLoop fuel ((rs <<< 1) % W) (i + 1) else i

/-- `fn execute(&mut self, insn: u32, mut rs: u32, rt: u32, mem: u32) -> u32`
(src/state.rs:504), the pure ALU / load / store value function.  `none`
models the final `panic!("invalid instruction")` reached by every opcode
and funct combination without a `return`. -/
def execute (insn rs0 rt mem : Nat) : Option Nat :=
  let opcode0 := insn >>> 26
  let fn0 := insn &&& 63
  if opcode0 < 32 then
    -- transform ArithLogI opcodes (8..0xe) to their R-type funct codes
    let fn :=
      if 8 ≤ opcode0 ∧ opcode0 < 15 then
        if opcode0 = 8 then 32 -- addi
        else if opcode0 = 9 then 33 -- addiu
        else if opcode0 = 10 then 42 -- slti
        else if opcode0 = 11 then 43 -- sltiu
        else if opcode0 = 12 then 36 -- andi
        else if opcode0 = 13 then 37 -- ori
        else 38 -- xori
      else fn0
    let opcode := if 8 ≤ opcode0 ∧ opcode0 < 15 then 0 else opcode0
    if opcode = 0 then
      let shamt := (insn >>> 6) &&& 31
      if fn < 32 ∧ 8 ≤ fn then some rs0 -- jr/jalr/div + others
      else if fn = 0 then some (wshl rt shamt) -- sll
      else if fn = 2 then some (rt >>> shamt) -- srl
      else if fn = 3 then some (sign_extension (rt >>> shamt) (32 - shamt)) -- sra
      else if fn = 4 then some (wshl rt (rs0 &&& 31)) -- sllv
      else if fn = 6 then some (rt >>> (rs0 &&& 31)) -- srlv
      else if fn = 7 then some (sign_extension (wshr rt rs0) (wsub 32 rs0)) -- srav
      else if fn = 32 ∨ fn = 33 then some (wadd rs0 rt) -- add/addu
      else if fn = 34 ∨ fn = 35 then some (wsub rs0 rt) -- sub/subu
      else if fn = 36 then some (rs0 &&& rt) -- and
      else if fn = 37 then some (rs0 ^^^ rt) -- xor
      else if fn = 39 then some ((rs0 ||| rt) ^^^ 4294967295) -- nor
      else if fn = 42 then some (if toSigned rs0 < toSigned rt then 1 else 0) -- slt
      else if fn = 43 then some (if rs0 < rt then 1 else 0) -- sltu
      else none
    else if opcode = 15 then some (wshl rt 16) -- lui
    else if opcode = 28 then -- SPECIAL2
      if fn = 2 then some (ofSigned (toSigned rs0 * toSigned rt)) -- mul
      else if fn = 32 ∨ fn = 33 then -- clz/clo
        some (cloLoop 33 (if fn = 32 then rs0 ^^^ 4294967295 else rs0) 0)
      else none
    else none
  else if opcode0 < 40 then
    if opcode0 = 32 then some (sign_extension ((mem >>> (24 - (rs0 &&& 3) * 8)) &&& 255) 8) -- lb
    else if opcode0 = 33 then
      some (sign_extension ((mem >>> (16 - (rs0 &&& 2) * 8)) &&& 65535) 16) -- lh
    else if opcode0 = 34 then -- lwl
      let v := wshl mem ((rs0 &&& 3) * 8)
      let mask := wshl 4294967295 ((rs0 &&& 3) * 8)
      some ((rt &&& (mask ^^^ 4294967295)) ||| v)
    else if opcode0 = 35 then some mem -- lw
    else if opcode0 = 36 then some ((mem >>> (24 - (rs0 &&& 3) * 8)) &&& 255) -- lbu
    else if opcode0 = 37 then some ((mem >>> (16 - (rs0 &&& 2) * 8)) &&& 65535) -- lhu
    else if opcode0 = 38 then -- lwr
      let v := mem >>> (24 - (rs0 &&& 3) * 8)
      let mask := 4294967295 >>> (24 - (rs0 &&& 3) * 8)
      some ((rt &&& (mask ^^^ 4294967295)) ||| v)
    else none
  else if opcode0 = 40 then -- sb
    let v := wshl (rt &&& 255) (24 - (rs0 &&& 3) * 8)
    let mask := 4294967295 ^^^ wshl 255 (24 - (rs0 &&& 3) * 8)
    some ((mem &&& mask) ||| v)
  else if opcode0 = 41 then -- sh
    let v := wshl (rt &&& 65535) (16 - (rs0 &&& 2) * 8)
    let mask := 4294967295 ^^^ wshl 65535 (16 - (rs0 &&& 2) * 8)
    some ((mem &&& mask) ||| v)
  else if opcode0 = 42 then -- swl
    let v := rt >>> ((rs0 &&& 3) * 8)
    let mask := 4294967295 >>> ((rs0 &&& 3) * 8)
    some ((mem &&& (mask ^^^ 4294967295)) ||| v)
  else if opcode0 = 43 then some rt -- sw
  else if opcode0 = 46 then -- swr
    let v := wshl rt (24 - (rs0 &&& 3) * 8)
    let mask := wshl 4294967295 (24 - (rs0 &&& 3) * 8)
    some ((mem &&& (mask ^^^ 4294967295)) ||| v)
  else if opcode0 = 48 then some mem -- ll
  else if opcode0 = 56 then some rt -- sc
  else none

/-- The tail of `mips_step` after the handler dispatch
(src/state.rs:489-501): the store-conditional register write, the memory
write of a store, and the final register writeback. -/
def step_finish (m : Machine) (opcode rt_reg rd_reg val store_addr : Nat) : Option Machine :=
  let m2 :=
    if opcode = 56 ∧ rt_reg ≠ 0 then { m with registers := writeReg m.registers rt_reg 1 }
    else m
  (if store_addr ≠ 4294967295 then
     (track_memory_access m2 store_addr).map fun m3 =>
       { m3 with memory := writeMem m3.memory store_addr val }
   else some m2).bind fun m3 => handle_rd m3 rd_reg val true

/-- The part of `mips_step` from the ALU call on (src/state.rs:458-501):
evaluate `execute`, dispatch the SPECIAL funct handlers (jumps,
conditional moves, syscall, hi/lo), otherwise fall through to
`step_finish`. -/
def step_rest (o : List Nat → List Nat) (m : Machine)
    (insn opcode rt rt_reg rd_reg rs mem store_addr : Nat) : Option Machine :=
  (execute insn rs rt mem).bind fun val =>
    let fn := insn &&& 63
    if opcode = 0 ∧ 8 ≤ fn ∧ fn < 28 then
      if fn = 8 ∨ fn = 9 then
        some (handle_jump m (if fn = 9 then rd_reg else 0) rs) -- jr/jalr
      else if fn = 10 then handle_rd m rd_reg rs (rt = 0) -- movz
      else if fn = 11 then handle_rd m rd_reg rs (rt ≠ 0) -- movn
      else if fn = 12 then handle_syscall o m -- syscall
      else if 16 ≤ fn ∧ fn < 28 then handle_hilo m fn rs rt rd_reg -- hi/lo
      else step_finish m opcode rt_reg rd_reg val store_addr -- fn 13/14/15 fall through
    else step_finish m opcode rt_reg rd_reg val store_addr

/-- The operand-fetch block of `mips_step` (src/state.rs:408-433),
computing the `rt` value handed to execution.  Note that on the
R-type/SPECIAL2 path the source reads
`self.state.registers[rt as usize]` where the value variable `rt` is
still 0 (src/state.rs:416), so the fetched operand is `registers[0]`,
not `registers[rt_reg]`. -/
def decode_rt (m : Machine) (insn : Nat) : Nat :=
  if insn >>> 26 = 0 ∨ insn >>> 26 = 28 then m.registers 0 -- registers[rt as usize], rt still 0
  else if insn >>> 26 < 32 then
    if insn >>> 26 = 12 ∨ insn >>> 26 = 13 ∨ insn >>> 26 = 14 then insn &&& 65535 -- ZeroExtImm
    else sign_extension (insn &&& 65535) 16 -- SignExtImm
  else if 40 ≤ insn >>> 26 ∨ insn >>> 26 = 34 ∨ insn >>> 26 = 38 then
    m.registers ((insn >>> 16) &&& 31) -- store value / lwl / lwr
  else 0

/-- The destination register selected by the operand-fetch block
(src/state.rs:413-432): `bits[15:11]` for R-type/SPECIAL2, otherwise
`rt_reg`. -/
def decode_rd_reg (insn : Nat) : Nat :=
  if insn >>> 26 = 0 ∨ insn >>> 26 = 28 then (insn >>> 11) &&& 31 else (insn >>> 16) &&& 31

/-- The memory-operand branch of `mips_step` (src/state.rs:443-455,
opcode ≥ 0x20): add the sign-extended immediate to `rs`, track and load
the aligned word, and for pure stores remember the address and force
`rd_reg` to 0. -/
def step_memfetch (o : List Nat → List Nat) (m : Machine) (insn : Nat) : Option Machine :=
  let rs1 := wadd (m.registers ((insn >>> 21) &&& 31)) (sign_extension (insn &&& 65535) 16)
  let addr := rs1 &&& 4294967292
  (track_memory_access m addr).bind fun m1 =>
    if 40 ≤ insn >>> 26 ∧ insn >>> 26 ≠ 48 then
      step_rest o m1 insn (insn >>> 26) (decode_rt m insn) ((insn >>> 16) &&& 31) 0 rs1
        (m1.memory addr) addr
    else
      step_rest o m1 insn (insn >>> 26) (decode_rt m insn) ((insn >>> 16) &&& 31)
        (decode_rd_reg insn) rs1 (m1.memory addr) 4294967295

/-- The body of `mips_step` on a live machine, after the step counter
has been incremented (src/state.rs:393-501): fetch the instruction at
`pc` and dispatch on its opcode. -/
def mips_step_live (o : List Nat → List Nat) (m : Machine) : Option Machine :=
  let insn := m.memory m.pc
  let opcode := insn >>> 26
  if opcode = 2 ∨ opcode = 3 then -- j/jal
    some (handle_jump m (if opcode = 3 then 31 else 0)
      (wshl (sign_extension (insn &&& 67108863) 26) 2))
  else if (4 ≤ opcode ∧ opcode < 8) ∨ opcode = 1 then -- branches
    handle_branch m opcode insn ((insn >>> 16) &&& 31) (m.registers ((insn >>> 21) &&& 31))
  else if 32 ≤ opcode then step_memfetch o m insn
  else
    step_rest o m insn opcode (decode_rt m insn) ((insn >>> 16) &&& 31) (decode_rd_reg insn)
      (m.registers ((insn >>> 21) &&& 31)) 0 4294967295

/-- `pub fn mips_step(&mut self)` (src/state.rs:386), the single-step
transition: a no-op once `exited` is set, otherwise increment the step
counter and execute the fetched instruction. -/
def mips_step (o : List Nat → List Nat) (m0 : Machine) : Option Machine :=
  if m0.exited then some m0
  else mips_step_live o { m0 with step := m0.step + 1 }

/-- An oracle that knows no preimages and is used where the oracle is
irrelevant. -/
def oZero : List Nat → List Nat := fun _ => []

/-- A live (not yet exited) machine with all fields zeroed and proofs
disabled, the base of the concrete machines below. -/
def mZero : Machine where
  memory := fun _ => 0
  preimage_key := List.replicate 32 0
  preimage_offset := 0
  registers := fun _ => 0
  pc := 0
  next_pc := 4
  hi := 0
  lo := 0
  heap := 0
  step := 0
  exited := false
  exit_code := 0
  last_hint := []
  last_mem_access := 0
  mem_proof_enabled := false
  last_preimage := []
  last_preimage_key := List.replicate 32 0
  last_preimage_offset := 0

/-- A machine whose whole memory is the word `0x00221821`, i.e. the
R-type instruction `addu $3, $1, $2`, with `registers[1] = 10` and
`registers[2] = 5`. -/
def mAddu : Machine :=
  { mZero with
    memory := fun _ => 2234401,
    registers := fun i => if i = 1 then 10 else if i = 2 then 5 else 0 }

/-- A machine whose whole memory is the word `0x10220003`, i.e. the
branch instruction `beq $1, $2, +3`. -/
def mBeq : Machine := { mZero with memory := fun _ => 271581187 }

/-- A machine about to retire a `syscall` instruction (word 12 at `pc`)
with `v0 = 4246` (exit_group) and `a0 = 300`. -/
def mExit : Machine :=
  { mZero with
    memory := fun _ => 12,
    registers := fun i => if i = 2 then 4246 else if i = 4 then 300 else 0 }

/-- A machine about to issue a `write` syscall on the preimage-write fd
with address `a1` and count `a2`. -/
def mPreimageWrite (a1 a2 : Nat) : Machine :=
  { mZero with
    registers := fun i =>
      if i = 2 then 4004 else if i = 4 then 6
      else if i = 5 then a1 else if i = 6 then a2 else 0 }

/-- A machine about to issue a `write` syscall of the five bytes
`[0, 0, 0, 3, 0x61]` (the first five bytes of a three-byte-payload hint
record) on the hint-write fd: `a1 = 0`, `a2 = 5`, and memory holding the
words `0x00000003` and `0x61000000`. -/
def mHintWrite : Machine :=
  { mZero with
    memory := fun a => if a = 0 then 3 else if a = 4 then 1627389952 else 0,
    registers := fun i =>
      if i = 2 then 4004 else if i = 4 then 4 else if i = 6 then 5 else 0 }

/-- A machine with an 11-byte preimage buffer (8-byte length prefix plus
the 3-byte blob `[1, 2, 3]`) cached under the key of 32 `7` bytes. -/
def mCached : Machine :=
  { mZero with
    last_preimage := [0, 0, 0, 0, 0, 0, 0, 3, 1, 2, 3],
    last_preimage_key := List.replicate 32 7 }

/-- An oracle whose every preimage is the 3-byte blob `[1, 2, 3]`. -/
def oThree : List Nat → List Nat := fun _ => [1, 2, 3]

/-- The successor state of `mAddu` under the step function. -/
def mAdduNext : Machine := (mips_step oZero mAddu).getD mAddu

/-! ### Register-zero preservation lemmas

Every register-writing path of the step function either targets a
nonzero index or is guarded by an explicit `!= 0` test, so the value of
register 0 survives any completed step. -/

theorem writeReg_zero {i : Nat} (r : Nat → Nat) (v : Nat) (h : i ≠ 0) :
    writeReg r i v 0 = r 0 := by
  simp [writeReg, Ne.symm h]

theorem syscallRet_reg0 (m : Machine) (v0 v1 : Nat) :
    (syscallRet m v0 v1).registers 0 = m.registers 0 := by
  simp [syscallRet, writeReg]

theorem track_registers {m m1 : Machine} {a : Nat}
    (h : track_memory_access m a = some m1) : m1.registers = m.registers := by
  unfold track_memory_access at h
  split at h
  · exact absurd h (by simp)
  · cases h; rfl

theorem read_preimage_registers {o : List Nat → List Nat} {m : Machine} {k : List Nat}
    {off : Nat} {r : Machine × List Nat × Nat}
    (h : read_preimage o m k off = some r) : r.1.registers = m.registers := by
  simp only [read_preimage] at h
  split at h
  · split at h
    · rcases Option.bind_eq_some.mp h with ⟨c, hc, hr⟩
      cases hr
      rfl
    · exact absurd h (by simp)
  · split at h
    · rcases Option.bind_eq_some.mp h with ⟨c, hc, hr⟩
      cases hr
      rfl
    · exact absurd h (by simp)

theorem handle_jump_reg0 (m : Machine) (l d : Nat) :
    (handle_jump m l d).registers 0 = m.registers 0 := by
  unfold handle_jump
  split
  · next h => exact writeReg_zero _ _ h
  · rfl

theorem hilo_finish_reg0 (m : Machine) (sr v : Nat) :
    (hilo_finish m sr v).registers 0 = m.registers 0 := by
  unfold hilo_finish
  split
  · next h => exact writeReg_zero _ _ h
  · rfl

theorem handle_hilo_reg0 {m m' : Machine} {fn rs rt sr : Nat}
    (h : handle_hilo m fn rs rt sr = some m') : m'.registers 0 = m.registers 0 := by
  unfold handle_hilo at h
  repeat' split at h
  all_goals cases h
  all_goals exact hilo_finish_reg0 _ _ _

theorem handle_rd_reg0 {m m' : Machine} {sr v : Nat} {c : Bool}
    (h : handle_rd m sr v c = some m') : m'.registers 0 = m.registers 0 := by
  unfold handle_rd at h
  split at h
  · exact absurd h (by simp)
  · cases h
    split
    · next hc => exact writeReg_zero _ _ hc.1
    · rfl

theorem handle_branch_registers {m m' : Machine} {a b c d : Nat}
    (h : handle_branch m a b c d = some m') : m'.registers = m.registers := by
  unfold handle_branch at h
  split at h
  · cases h
  · rcases Option.bind_eq_some.mp h with ⟨sb, hsb, hr⟩
    cases sb
    all_goals cases hr
    all_goals rfl

theorem syscall_preimage_read_reg0 {o : List Nat → List Nat} {m m' : Machine} {a1 a2 : Nat}
    (h : syscall_preimage_read o m a1 a2 = some m') : m'.registers 0 = m.registers 0 := by
  simp only [syscall_preimage_read] at h
  rcases Option.bind_eq_some.mp h with ⟨m1, h1, h2⟩
  rcases Option.bind_eq_some.mp h2 with ⟨r2, hr2, h3⟩
  rcases Option.bind_eq_some.mp h3 with ⟨t3, ht3, h4⟩
  cases h4
  rw [syscallRet_reg0]
  show r2.1.registers 0 = m.registers 0
  rw [read_preimage_registers hr2, track_registers h1]

theorem syscall_hint_write_reg0 {m m' : Machine} {a1 a2 : Nat}
    (h : syscall_hint_write m a1 a2 = some m') : m'.registers 0 = m.registers 0 := by
  simp only [syscall_hint_write] at h
  rcases Option.bind_eq_some.mp h with ⟨r1, hr1, h2⟩
  cases h2
  rw [syscallRet_reg0]

theorem syscall_preimage_write_reg0 {m m' : Machine} {a1 a2 : Nat}
    (h : syscall_preimage_write m a1 a2 = some m') : m'.registers 0 = m.registers 0 := by
  simp only [syscall_preimage_write] at h
  rcases Option.bind_eq_some.mp h with ⟨m1, h1, h2⟩
  rcases Option.bind_eq_some.mp h2 with ⟨k2, hk2, h3⟩
  rcases Option.bind_eq_some.mp h3 with ⟨t3, ht3, h4⟩
  cases h4
  rw [syscallRet_reg0]
  show m1.registers 0 = m.registers 0
  rw [track_registers h1]

set_option maxHeartbeats 1000000 in
theorem handle_syscall_reg0 {o : List Nat → List Nat} {m m' : Machine}
    (h : handle_syscall o m = some m') : m'.registers 0 = m.registers 0 := by
  unfold handle_syscall at h
  repeat' split at h
  all_goals first
    | (cases h <;> rfl)
    | exact syscall_preimage_read_reg0 h
    | exact syscall_hint_write_reg0 h
    | exact syscall_preimage_write_reg0 h

theorem step_finish_reg0 {m m' : Machine} {opcode rt_reg rd_reg val store_addr : Nat}
    (h : step_finish m opcode rt_reg rd_reg val store_addr = some m') :
    m'.registers 0 = m.registers 0 := by
  simp only [step_finish] at h
  rcases Option.bind_eq_some.mp h with ⟨m3, h3, hrd⟩
  have hm3 : m3.registers 0 = m.registers 0 := by
    split at h3
    · rcases Option.map_eq_some'.mp h3 with ⟨m4, h4, he⟩
      cases he
      show m4.registers 0 = m.registers 0
      rw [track_registers h4]
      split
      · next hc => exact writeReg_zero _ _ hc.2
      · rfl
    · cases h3
      split
      · next hc => exact writeReg_zero _ _ hc.2
      · rfl
  rw [handle_rd_reg0 hrd, hm3]

theorem step_rest_reg0 {o : List Nat → List Nat} {m m' : Machine}
    {insn opcode rt rt_reg rd_reg rs mem sa : Nat}
    (h : step_rest o m insn opcode rt rt_reg rd_reg rs mem sa = some m') :
    m'.registers 0 = m.registers 0 := by
  simp only [step_rest] at h
  rcases Option.bind_eq_some.mp h with ⟨val, hval, h2⟩
  repeat' split at h2
  all_goals first
    | (cases h2; exact handle_jump_reg0 _ _ _)
    | exact handle_rd_reg0 h2
    | exact handle_syscall_reg0 h2
    | exact handle_hilo_reg0 h2
    | exact step_finish_reg0 h2

theorem step_memfetch_reg0 {o : List Nat → List Nat} {m m' : Machine} {insn : Nat}
    (h : step_memfetch o m insn = some m') : m'.registers 0 = m.registers 0 := by
  simp only [step_memfetch] at h
  rcases Option.bind_eq_some.mp h with ⟨m1, h1, h2⟩
  split at h2
  all_goals rw [step_rest_reg0 h2, track_registers h1]

theorem mips_step_live_reg0 {o : List Nat → List Nat} {m m' : Machine}
    (h : mips_step_live o m = some m') : m'.registers 0 = m.registers 0 := by
  simp only [mips_step_live] at h
  split at h
  · cases h; exact handle_jump_reg0 _ _ _
  · split at h
    · rw [handle_branch_registers h]
    · split at h
      · exact step_memfetch_reg0 h
      · exact step_rest_reg0 h

theorem mips_step_reg0 {o : List Nat → List Nat} {m m' : Machine}
    (h : mips_step o m = some m') : m'.registers 0 = m.registers 0 := by
  unfold mips_step at h
  split at h
  · cases h; rfl
  · rw [mips_step_live_reg0 h]

/-- Every preimage write is fatal: the first `copy_from_slice` needs
`a2 = 0` (source length `32 - a2` against destination length 32) while
the second needs `a2 = 4` (source length 4 against destination length
`a2`), so one of the two always panics. -/
theorem preimage_write_always_none (m : Machine) (a1 a2 : Nat)
    (hk : m.preimage_key.length = 32) (hp : m.mem_proof_enabled = false) :
    syscall_preimage_write m a1 a2 = none := by
  simp only [syscall_preimage_write, track_memory_access, hp, Bool.false_eq_true, false_and,
    if_false, Option.some_bind]
  by_cases ha : min a2 (4 - (a1 &&& 3)) = 0
  · simp [ha, copyFromSlice, hk, u32BeBytes]
  · have hne : ¬ ((m.preimage_key.drop (min a2 (4 - (a1 &&& 3)))).length =
        (List.replicate 32 0).length) := by
      simp only [List.length_drop, List.length_replicate, hk]
      omega
    simp only [copyFromSlice, List.length_drop, List.length_replicate]
    rw [if_neg (by rw [hk]; omega)]
    rfl

/-- A read of an already-cached preimage key returns the machine with
only the read offset updated, together with
`min(cached length - offset, 32)` bytes — written here with the
hypothesis `cached length - offset ≤ 32` so the `copy_from_slice` into
the 32-byte output array does not panic. -/
theorem read_preimage_cached (o : List Nat → List Nat) (m : Machine) (key : List Nat)
    (off : Nat) (hk : key = m.last_preimage_key) (hoff : off ≤ m.last_preimage.length)
    (hrem : m.last_preimage.length - off ≤ 32) :
    ∃ r, read_preimage o m key off = some r ∧
      r.1 = { m with last_preimage_offset := off } ∧
      r.2.2 = m.last_preimage.length - off := by
  simp only [read_preimage, if_neg (not_not_intro hk)]
  rw [if_pos hoff]
  simp only [copyFromSlice, List.length_take, List.length_replicate, List.length_drop]
  rw [if_pos (by omega)]
  simp only [Option.some_bind]
  exact ⟨_, rfl, rfl, by simp only [List.length_drop]; omega⟩

/-! ### Claim theorems -/

/-- C1: the claim states that for opcode 0 / 0x1c the `rt` operand passed
on to execution is `registers[rt_reg]`.  The source instead indexes the
register file with the value variable `rt`, which is still 0, so the
operand is always `registers[0]`: on the machine `mAddu`, whose memory
holds `addu $3, $1, $2` with `registers[1] = 10` and `registers[2] = 5`,
the decoded `rt` operand is `registers[0] = 0` rather than
`registers[rt_reg] = registers[2] = 5`, and the retired step writes
`10 = rs + 0` (not `15 = rs + registers[2]`) into register 3. -/
theorem c1_rtype_rt_reads_register_zero :
    mAddu.registers 1 = 10 ∧ mAddu.registers 2 = 5 ∧
    decode_rt mAddu 2234401 = mAddu.registers 0 ∧
    decode_rt mAddu 2234401 ≠ mAddu.registers ((2234401 >>> 16) &&& 31) ∧
    ((mips_step oZero mAddu).map fun m => m.registers 3) = some 10 ∧
    wadd (mAddu.registers 1) (mAddu.registers 2) = 15 :=
  ⟨rfl, rfl, rfl, by decide, rfl, rfl⟩

/-- C2: the claim states that `handle_branch` retires `beq`/`bne`
without a fatal error.  The source panics whenever the full instruction
word is neither 0 nor 1, which holds for every well-formed branch word
(they carry a nonzero opcode in bits 31:26), so every branch instruction
is fatal: concretely for `beq $1, $2, +3` (word `0x10220003`) and
`bne $1, $2, +3` (word `0x14220003`), both directly and through the full
step function. -/
theorem c2_branch_always_fatal :
    (∀ (m : Machine) (rt_reg rs : Nat), handle_branch m 4 271581187 rt_reg rs = none) ∧
    (∀ (m : Machine) (rt_reg rs : Nat), handle_branch m 5 338690051 rt_reg rs = none) ∧
    mips_step oZero mBeq = none :=
  ⟨fun _ _ _ => rfl, fun _ _ _ => rfl, rfl⟩

/-- C3: `div(7, 2)` does give `lo = 3, hi = 1` and
`divu(0xFFFFFFFF, 2)` gives `lo = 0x7FFFFFFF, hi = 1`, but
`mult(0xFFFFFFFF, 0xFFFFFFFF)` gives `hi = 0xFFFFFFFE, lo = 1` rather
than the claimed signed result `hi = 0, lo = 1`, because the source
zero-extends the `u32` operands into `i64` (`rs as i64`) instead of
sign-extending them. -/
theorem c3_hilo_div_exact_but_mult_unsigned :
    ((handle_hilo mZero 26 7 2 0).map fun m => (m.lo, m.hi)) = some (3, 1) ∧
    ((handle_hilo mZero 27 4294967295 2 0).map fun m => (m.lo, m.hi)) = some (2147483647, 1) ∧
    ((handle_hilo mZero 24 4294967295 4294967295 0).map fun m => (m.lo, m.hi)) =
      some (1, 4294967294) ∧
    (4294967294 : Nat) ≠ 0 :=
  ⟨rfl, rfl, rfl, by decide⟩

/-- C6: the claim states that a write of a strict prefix of a hint
record is buffered without a fatal error.  The source's completeness
test is inverted (`hint_len >= remaining` instead of `<=`), so the write
of the five bytes `[0, 0, 0, 3, 0x61]` (a prefix of a three-byte-payload
record) slices `last_hint[4..7]` out of range and panics, for every
fuel.  A write carrying exactly one complete record still succeeds. -/
theorem c6_partial_hint_write_fatal :
    (∀ fuel : Nat, hintLoop fuel [0, 0, 0, 3, 97] [] = none) ∧
    handle_syscall oZero mHintWrite = none ∧
    hintLoop 8 [0, 0, 0, 3, 97, 98, 99] [] = some ([], [[97, 98, 99]]) := by
  refine ⟨fun fuel => ?_, rfl, rfl⟩
  cases fuel
  · rfl
  · rfl

/-- C10: a `div` (funct 0x1a) or `divu` (funct 0x1b) with divisor
`rt = 0` has no successor state: `handle_hilo` reaches the division and
the Rust division by zero aborts, for every machine, dividend and
destination register. -/
theorem c10_div_by_zero_fatal (m : Machine) (rs store_reg fn : Nat)
    (h : fn = 26 ∨ fn = 27) : handle_hilo m fn rs 0 store_reg = none := by
  rcases h with h | h <;> subst h <;> rfl

/-- Witness for C10 at `fn = 0x1a` and `fn = 0x1b` on a concrete
machine. -/
theorem c10_div_by_zero_fatal_witness :
    handle_hilo mZero 26 7 0 0 = none ∧ handle_hilo mZero 27 7 0 0 = none :=
  ⟨c10_div_by_zero_fatal mZero 7 0 26 (Or.inl rfl),
   c10_div_by_zero_fatal mZero 7 0 27 (Or.inr rfl)⟩

/-- C4: the claim states that a preimage write shifts the key, resets
the offset and returns `n = min(a2, 4 - (a1 & 3))` for every alignment
and count.  In the source both `copy_from_slice` calls require equal
lengths (the first only holds for an effective count of 0, the second
only for 4), so every preimage write panics instead: for every address
`a1` and count `a2`, the write syscall on fd 6 has no successor
state. -/
theorem c4_preimage_write_always_fatal :
    ∀ a1 a2 : Nat, handle_syscall oZero (mPreimageWrite a1 a2) = none := by
  intro a1 a2
  show syscall_preimage_write (mPreimageWrite a1 a2) a1 a2 = none
  exact preimage_write_always_none _ a1 a2 rfl rfl

/-- C5 counterexample: the claim states the cached buffer is the blob
prefixed with a 4-byte big-endian length, of length blob + 4.  Fetching
the 3-byte blob `[1, 2, 3]` under a fresh key caches an 11-byte buffer
with an 8-byte prefix (`usize::to_be_bytes` on the 64-bit target), not
the claimed 7-byte buffer. -/
theorem c5_four_byte_prefix_counterexample :
    ((read_preimage oThree mZero (List.replicate 32 7) 0).map fun r => r.1.last_preimage) =
      some [0, 0, 0, 0, 0, 0, 0, 3, 1, 2, 3] ∧
    (oThree (List.replicate 32 7)).length + 4 = 7 ∧
    ((read_preimage oThree mZero (List.replicate 32 7) 0).map fun r =>
        r.1.last_preimage.length) ≠ some 7 :=
  ⟨rfl, rfl, by decide⟩

/-- C5 as amended: on a key miss the engine fetches the blob and caches
it behind an 8-byte big-endian length prefix, so the cached buffer has
length blob + 8 (stated for offsets that leave at most 32 bytes after
them, where the output copy does not panic). -/
theorem c5_eight_byte_length_prefix (o : List Nat → List Nat) (m : Machine) (key : List Nat)
    (off : Nat) (hk : key ≠ m.last_preimage_key) (h1 : off ≤ (o key).length + 8)
    (h2 : (o key).length + 8 - off ≤ 32) :
    ∃ r, read_preimage o m key off = some r ∧
      r.1.last_preimage = u64BeBytes (o key).length ++ o key ∧
      r.1.last_preimage.length = (o key).length + 8 := by
  have hX : (u64BeBytes (o key).length ++ o key).length = (o key).length + 8 := by
    simp [u64BeBytes]
  simp only [read_preimage, if_pos hk]
  rw [if_pos (show off ≤ (u64BeBytes (o key).length ++ o key).length by rw [hX]; exact h1)]
  simp only [copyFromSlice, List.length_take, List.length_replicate, List.length_drop]
  rw [if_pos (by rw [hX]; omega)]
  simp only [Option.some_bind]
  exact ⟨_, rfl, rfl, hX⟩

/-- Witness for C5 on the concrete oracle `oThree` and a fresh key. -/
theorem c5_eight_byte_length_prefix_witness :
    ∃ r, read_preimage oThree mZero (List.replicate 32 7) 0 = some r ∧
      r.1.last_preimage = u64BeBytes (oThree (List.replicate 32 7)).length ++
        oThree (List.replicate 32 7) ∧
      r.1.last_preimage.length = (oThree (List.replicate 32 7)).length + 8 :=
  c5_eight_byte_length_prefix oThree mZero (List.replicate 32 7) 0 (by decide) (by decide)
    (by decide)

/-- C7 counterexample: the claim states that reading past the cached
buffer length returns 0 bytes rather than failing.  On the cached
11-byte buffer of `mCached`, reading at offset 12 slices
`last_preimage[12..]` out of range and panics: there is no result at
all. -/
theorem c7_read_past_end_fatal :
    mCached.last_preimage.length = 11 ∧
    read_preimage oZero mCached (List.replicate 32 7) 12 = none :=
  ⟨rfl, rfl⟩

/-- C7 as amended: for a cached buffer of length `L`, reading at offset
`L - 1` returns exactly 1 available byte, reading at offset `L` returns
0 bytes, and reading at any offset strictly past `L` is fatal (the
slice `last_preimage[offset..]` panics). -/
theorem c7_read_bounding (o : List Nat → List Nat) (m : Machine) (key : List Nat) (L : Nat)
    (hk : key = m.last_preimage_key) (hL : m.last_preimage.length = L) (h1 : 1 ≤ L) :
    (∃ r, read_preimage o m key (L - 1) = some r ∧ r.2.2 = 1) ∧
    (∃ r, read_preimage o m key L = some r ∧ r.2.2 = 0) ∧
    ∀ off, L < off → read_preimage o m key off = none := by
  refine ⟨?_, ?_, ?_⟩
  · obtain ⟨r, hr, _, hc⟩ := read_preimage_cached o m key (L - 1) hk
      (by rw [hL]; omega) (by rw [hL]; omega)
    exact ⟨r, hr, by rw [hc, hL]; omega⟩
  · obtain ⟨r, hr, _, hc⟩ := read_preimage_cached o m key L hk
      (by rw [hL]) (by rw [hL]; omega)
    exact ⟨r, hr, by rw [hc, hL]; omega⟩
  · intro off hoff
    simp only [read_preimage, if_neg (not_not_intro hk)]
    rw [if_neg (by rw [hL]; omega)]

/-- Witness for C7 on the concrete machine `mCached`, whose cached
buffer has length 11. -/
theorem c7_read_bounding_witness :
    (∃ r, read_preimage oZero mCached (List.replicate 32 7) 10 = some r ∧ r.2.2 = 1) ∧
    (∃ r, read_preimage oZero mCached (List.replicate 32 7) 11 = some r ∧ r.2.2 = 0) ∧
    ∀ off, 11 < off → read_preimage oZero mCached (List.replicate 32 7) off = none :=
  c7_read_bounding oZero mCached (List.replicate 32 7) 11 rfl rfl (by decide)

/-- C8: an `exit_group` syscall (number 4246) sets `exited` and the low
byte of `a0` as the exit code while leaving every other machine-state
field except the step counter unchanged, and once `exited` holds the
step function returns the machine unchanged. -/
theorem c8_exit_terminality (o o2 : List Nat → List Nat) (m : Machine)
    (hx : m.exited = false) (hm : m.memory m.pc = 12) (hv : m.registers 2 = 4246) :
    mips_step o m = some { m with step := m.step + 1, exited := true,
                                  exit_code := m.registers 4 % 256 } ∧
    ∀ m2 : Machine, m2.exited = true → mips_step o2 m2 = some m2 := by
  constructor
  · have hlive : mips_step o m = mips_step_live o { m with step := m.step + 1 } := by
      simp only [mips_step, hx, Bool.false_eq_true, if_false]
    have h1 : mips_step_live o { m with step := m.step + 1 } =
        handle_syscall o { m with step := m.step + 1 } := by
      simp only [mips_step_live, hm]
      rfl
    have h2 : handle_syscall o { m with step := m.step + 1 } = some { m with step := m.step + 1, exited := true, exit_code := m.registers 4 % 256 } := by
      simp only [handle_syscall, hv]
      rfl
    rw [hlive, h1, h2]
  · intro m2 hm2
    simp [mips_step, hm2]

/-- Witness for C8 on the concrete machine `mExit` (`a0 = 300`, so the
exit code is `300 % 256 = 44`). -/
theorem c8_exit_terminality_witness :
    mips_step oZero mExit = some { mExit with step := mExit.step + 1, exited := true,
                                              exit_code := mExit.registers 4 % 256 } ∧
    ∀ m2 : Machine, m2.exited = true → mips_step oZero m2 = some m2 :=
  c8_exit_terminality oZero oZero mExit rfl rfl rfl

/-- C9: register 0 is preserved by every completed step: every
register-write path of the transition either targets a fixed nonzero
index or is guarded by a `!= 0` test on the destination. -/
theorem c9_register_zero_preserved (o : List Nat → List Nat) (m m' : Machine)
    (h : mips_step o m = some m') (h0 : m.registers 0 = 0) : m'.registers 0 = 0 := by
  rw [mips_step_reg0 h]
  exact h0

/-- Witness for C9: the concrete `addu` step from `mAddu` preserves
register 0. -/
theorem c9_register_zero_preserved_witness : mAdduNext.registers 0 = 0 :=
  c9_register_zero_preserved oZero mAddu mAdduNext rfl rfl

end MipsEmulator
